import Mathlib

/-!
Verification of the glow-server subscription-and-fan-out core.

Shallow embedding of the TypeScript handlers:
* `connectHandler` embeds `src/source/websocket/connect.ts` (WebSocket $connect
  authorizer: nonce lookup, signature verification, nonce deletion);
* the subscription registry embeds the DynamoDB `PriceConnectionsTable`
  (`sst.config.ts`: primary key is `connectionId` alone, GSI `byToken`) and
  the `subscribePrice` handler;
* `broadcastWorker` embeds `src/source/workers/broadcast.ts` (SQS fan-out);
* `sweepTable` embeds the TTL sweeper handler;
* `publishDispatch` embeds the engine-choice tail of the price-webhook handler;
* `broadcastRun` embeds `BroadcastRoom.broadcast` of the Durable Object;
* `workerFetch` embeds the Cloudflare worker's route dispatch.

External effects (DynamoDB, SQS, sockets, nacl) are modelled by explicit
state passing and outcome oracles; machine behaviour that the handlers only
observe (store errors, send errors, HTTP statuses) appears as Boolean or
enumerated parameters.
-/

namespace Glow

/-! ### Nonce store (`WebsocketNonceTable`)

One row per wallet; `wallet` is the table's primary key, so a put replaces
any prior row for the wallet and a delete removes every row with that key. -/

structure NonceRow where
  wallet : String
  nonce : String
  ttl : Nat
deriving DecidableEq, Repr

/-- `GetCommand` on the nonce table: the stored nonce value for `w`, if any. -/
def getNonce (s : List NonceRow) (w : String) : Option String :=
  (s.find? (fun r => r.wallet = w)).map (·.nonce)

/-- `DeleteCommand` on the nonce table keyed by `wallet`. -/
def deleteNonce (s : List NonceRow) (w : String) : List NonceRow :=
  s.filter (fun r => r.wallet ≠ w)

/-- `PutCommand` on the nonce table: replaces any prior nonce for the wallet
(`src/unnamed/part_006`, the nonce issuer). -/
def putNonce (s : List NonceRow) (w n : String) (ttl : Nat) : List NonceRow :=
  ⟨w, n, ttl⟩ :: deleteNonce s w

/-- Outcomes of the `$connect` handler, read off the HTTP responses of
`src/source/websocket/connect.ts`: 401 "Missing authentication parameters",
401 "Invalid or expired nonce", 401 "Invalid signature",
401 "Invalid signature format", 500 "Internal server error",
200 "Connected". -/
inductive AuthOutcome
  | missingParams
  | invalidOrExpiredNonce
  | invalidSignature
  | invalidSignatureFormat
  | internalError
  | connected
deriving DecidableEq, Repr

structure AuthResult where
  outcome : AuthOutcome
  store : List NonceRow
  /-- how many times `nacl.sign.detached.verify` was invoked -/
  cryptoCalls : Nat
deriving DecidableEq, Repr

/-- JavaScript truthiness of an optional header/query value:
absent or the empty string is falsy. -/
def isBlank : Option String → Bool
  | none => true
  | some s => s = ""

/-- Embedding of the `$connect` handler (`src/source/websocket/connect.ts`).

`wallet`, `signature`, `message` are the request parameters; `verify sig m w`
is the outcome of `nacl.sign.detached.verify` over signature `sig`, message
`m` and the public key of `w` (`none` models the PublicKey/Buffer
construction throwing, which the source maps to "Invalid signature format");
`deleteOk` models whether the `DeleteCommand` that removes the consumed
nonce succeeds — if it throws, control reaches the handler's outer `catch`,
which returns 500. -/
def connectHandler (store : List NonceRow)
    (wallet signature message : Option String)
    (verify : String → String → String → Option Bool)
    (deleteOk : Bool) : AuthResult :=
  if isBlank wallet || isBlank signature || isBlank message then
    ⟨.missingParams, store, 0⟩
  else
    let w := wallet.getD ""
    let sig := signature.getD ""
    let m := message.getD ""
    match getNonce store w with
    | none => ⟨.invalidOrExpiredNonce, store, 0⟩
    | some n =>
      if n = m then
        match verify sig m w with
        | none => ⟨.invalidSignatureFormat, store, 1⟩
        | some false => ⟨.invalidSignature, store, 1⟩
        | some true =>
          if deleteOk then ⟨.connected, deleteNonce store w, 1⟩
          else ⟨.internalError, store, 1⟩
      else ⟨.invalidOrExpiredNonce, store, 0⟩

/-- After deleting wallet `w`'s row, no nonce is stored for `w`. -/
theorem getNonce_deleteNonce (s : List NonceRow) (w : String) :
    getNonce (deleteNonce s w) w = none := by
  unfold getNonce deleteNonce
  rw [List.find?_eq_none.mpr]
  · rfl
  · intro r hr
    have hmem := List.mem_filter.mp hr
    simpa using hmem.2

/-- C1: single-use nonce. A successful, correctly signed authentication
deletes the wallet's stored nonce, and an immediately following
authentication presenting the same nonce value is rejected with
`invalid_or_expired_nonce` — a given nonce admits a connection exactly
once. -/
theorem nonce_single_use (s : List NonceRow) (w sig m : String)
    (verify : String → String → String → Option Bool)
    (hw : w ≠ "") (hs : sig ≠ "") (hm : m ≠ "")
    (hnonce : getNonce s w = some m)
    (hver : verify sig m w = some true) :
    (connectHandler s (some w) (some sig) (some m) verify true).outcome
        = AuthOutcome.connected ∧
    getNonce (connectHandler s (some w) (some sig) (some m) verify true).store w
        = none ∧
    ∀ (sig2 : String) (verify2 : String → String → String → Option Bool)
      (d2 : Bool), sig2 ≠ "" →
      (connectHandler
          (connectHandler s (some w) (some sig) (some m) verify true).store
          (some w) (some sig2) (some m) verify2 d2).outcome
        = AuthOutcome.invalidOrExpiredNonce := by
  have hblank : (isBlank (some w) || isBlank (some sig) || isBlank (some m))
      = false := by
    simp [isBlank, hw, hs, hm]
  have h1 : connectHandler s (some w) (some sig) (some m) verify true
      = ⟨.connected, deleteNonce s w, 1⟩ := by
    unfold connectHandler
    rw [hblank]
    simp only [Bool.false_eq_true, if_false, Option.getD_some]
    rw [hnonce]
    simp [hver]
  refine ⟨by rw [h1], by rw [h1]; exact getNonce_deleteNonce s w, ?_⟩
  intro sig2 verify2 d2 hs2
  have hblank2 : (isBlank (some w) || isBlank (some sig2) || isBlank (some m))
      = false := by
    simp [isBlank, hw, hs2, hm]
  rw [h1]
  unfold connectHandler
  rw [hblank2]
  simp only [Bool.false_eq_true, if_false, Option.getD_some]
  rw [getNonce_deleteNonce s w]

/-- Closed witness for C1: a concrete store, wallet and verifier exercising
`nonce_single_use`. -/
theorem nonce_single_use_witness :
    (connectHandler [⟨"W", "N", 100⟩] (some "W") (some "SIG") (some "N")
        (fun _ _ _ => some true) true).outcome = AuthOutcome.connected ∧
    (connectHandler
        (connectHandler [⟨"W", "N", 100⟩] (some "W") (some "SIG") (some "N")
          (fun _ _ _ => some true) true).store
        (some "W") (some "SIG") (some "N")
        (fun _ _ _ => some true) true).outcome
      = AuthOutcome.invalidOrExpiredNonce := by
  have h := nonce_single_use [⟨"W", "N", 100⟩] "W" "SIG" "N"
      (fun _ _ _ => some true)
      (by decide) (by decide) (by decide) (by decide) rfl
  exact ⟨h.1, h.2.2 "SIG" (fun _ _ _ => some true) true (by decide)⟩

/-- C5: authentication gate ordering. When no nonce is stored for the wallet,
or the stored nonce differs from the presented message, the handler rejects
with `invalid_or_expired_nonce` for every signature and verifier, and the
signature verifier is never invoked (`cryptoCalls = 0`); when the nonce
matches and verification returns false, the rejection reason is
`invalid_signature`. -/
theorem auth_gate_ordering (s : List NonceRow) (w sig m : String)
    (verify : String → String → String → Option Bool) (dOk : Bool)
    (hw : w ≠ "") (hs : sig ≠ "") (hm : m ≠ "") :
    ((getNonce s w = none ∨ (∃ n, getNonce s w = some n ∧ n ≠ m)) →
      (connectHandler s (some w) (some sig) (some m) verify dOk).outcome
          = AuthOutcome.invalidOrExpiredNonce ∧
      (connectHandler s (some w) (some sig) (some m) verify dOk).cryptoCalls
          = 0) ∧
    (getNonce s w = some m → verify sig m w = some false →
      (connectHandler s (some w) (some sig) (some m) verify dOk).outcome
          = AuthOutcome.invalidSignature) := by
  have hblank : (isBlank (some w) || isBlank (some sig) || isBlank (some m))
      = false := by
    simp [isBlank, hw, hs, hm]
  constructor
  · rintro (hnone | ⟨n, hn, hne⟩)
    · unfold connectHandler
      rw [hblank]
      simp only [Bool.false_eq_true, if_false, Option.getD_some]
      rw [hnone]
      exact ⟨rfl, rfl⟩
    · unfold connectHandler
      rw [hblank]
      simp only [Bool.false_eq_true, if_false, Option.getD_some]
      rw [hn]
      simp [hne]
  · intro hmatch hver
    unfold connectHandler
    rw [hblank]
    simp only [Bool.false_eq_true, if_false, Option.getD_some]
    rw [hmatch]
    simp [hver]

/-- Closed witness for C5: with the stored nonce `"N"` and a presented
message `"M"`, the handler rejects with `invalid_or_expired_nonce` and
performs no signature verification; with a matching nonce and a failing
verifier, it rejects with `invalid_signature`. -/
theorem auth_gate_ordering_witness :
    ((connectHandler [⟨"W", "N", 100⟩] (some "W") (some "SIG") (some "M")
        (fun _ _ _ => some true) true).outcome
      = AuthOutcome.invalidOrExpiredNonce ∧
     (connectHandler [⟨"W", "N", 100⟩] (some "W") (some "SIG") (some "M")
        (fun _ _ _ => some true) true).cryptoCalls = 0) ∧
    (connectHandler [⟨"W", "N", 100⟩] (some "W") (some "SIG") (some "N")
        (fun _ _ _ => some false) true).outcome
      = AuthOutcome.invalidSignature := by
  constructor
  · exact (auth_gate_ordering [⟨"W", "N", 100⟩] "W" "SIG" "M"
      (fun _ _ _ => some true) true (by decide) (by decide) (by decide)).1
      (Or.inr ⟨"N", by decide, by decide⟩)
  · exact (auth_gate_ordering [⟨"W", "N", 100⟩] "W" "SIG" "N"
      (fun _ _ _ => some false) true (by decide) (by decide) (by decide)).2
      (by decide) rfl

/-- C4 counterexample: when the nonce lookup and signature verification
succeed but the `DeleteCommand` removing the consumed nonce throws, control
reaches the handler's outer catch and the response is 500
`internalError` — the connection is NOT admitted, contradicting the claim
that a failed deletion still admits the connection. -/
theorem nonce_cleanup_counterexample :
    (connectHandler [⟨"W", "N", 100⟩] (some "W") (some "SIG") (some "N")
        (fun _ _ _ => some true) false).outcome = AuthOutcome.internalError ∧
    AuthOutcome.internalError ≠ AuthOutcome.connected := by
  constructor
  · rfl
  · decide

/-- C4 (amended): the consumed nonce is deleted only after signature
verification succeeds — in every rejecting branch the store is unchanged —
but if the deletion fails, the handler returns 500 (`internalError`) and the
connection is not admitted. -/
theorem nonce_cleanup_amended (s : List NonceRow) (w sig m : String)
    (verify : String → String → String → Option Bool) (dOk : Bool)
    (hw : w ≠ "") (hs : sig ≠ "") (hm : m ≠ "") :
    ((connectHandler s (some w) (some sig) (some m) verify dOk).store ≠ s →
      getNonce s w = some m ∧ verify sig m w = some true) ∧
    (getNonce s w = some m → verify sig m w = some true → dOk = false →
      (connectHandler s (some w) (some sig) (some m) verify dOk).outcome
        = AuthOutcome.internalError) := by
  have hblank : (isBlank (some w) || isBlank (some sig) || isBlank (some m))
      = false := by
    simp [isBlank, hw, hs, hm]
  constructor
  · intro hchange
    unfold connectHandler at hchange
    rw [hblank] at hchange
    simp only [Bool.false_eq_true, if_false, Option.getD_some] at hchange
    rcases hn : getNonce s w with _ | n
    · rw [hn] at hchange; exact absurd rfl hchange
    · rw [hn] at hchange
      dsimp only at hchange
      by_cases hnm : n = m
      · rw [if_pos hnm] at hchange
        rcases hv : verify sig m w with _ | b
        · rw [hv] at hchange; exact absurd rfl hchange
        · cases b
          · rw [hv] at hchange; exact absurd rfl hchange
          · exact ⟨by rw [hnm], rfl⟩
      · rw [if_neg hnm] at hchange; exact absurd rfl hchange
  · intro hmatch hver hdel
    subst hdel
    unfold connectHandler
    rw [hblank]
    simp only [Bool.false_eq_true, if_false, Option.getD_some]
    rw [hmatch]
    simp [hver]

/-- Closed witness for the amended C4: a concrete run where deletion fails
yields `internalError`, and a concrete rejecting run leaves the store
unchanged (shown via the contrapositive of the first conjunct). -/
theorem nonce_cleanup_amended_witness :
    (connectHandler [⟨"W", "N", 100⟩] (some "W") (some "SIG") (some "N")
        (fun _ _ _ => some true) false).outcome = AuthOutcome.internalError := by
  exact (nonce_cleanup_amended [⟨"W", "N", 100⟩] "W" "SIG" "N"
      (fun _ _ _ => some true) false
      (by decide) (by decide) (by decide)).2 rfl rfl rfl

/-! ### Subscription registry (`PriceConnectionsTable`)

`sst.config.ts` declares the table with `primaryIndex: { hashKey:
"connectionId" }` (no range key) and a global secondary index `byToken`.
A DynamoDB `PutCommand` therefore replaces any existing item with the same
`connectionId`, whatever its `token` value. -/

structure SubRow where
  connectionId : String
  token : String
  ttl : Nat
deriving DecidableEq, Repr

/-- `PutCommand` on `PriceConnectionsTable`: the table's primary key is
`connectionId` alone, so the put replaces every row with that connection id. -/
def putSub (t : List SubRow) (r : SubRow) : List SubRow :=
  r :: t.filter (fun x => x.connectionId ≠ r.connectionId)

/-- The `subscribePrice` handler's registry write: stores
`{connectionId, token, ttl: now + 3600}` (1-hour TTL). -/
def subscribePrice (t : List SubRow) (c tok : String) (now : Nat) : List SubRow :=
  putSub t ⟨c, tok, now + 3600⟩

/-- `QueryCommand` on the `byToken` GSI: connection ids of all rows whose
`token` equals the broadcast topic. -/
def resolveSubscribers (t : List SubRow) (tok : String) : List String :=
  (t.filter (fun r => r.token = tok)).map (·.connectionId)

/-- Point query by the table's primary key `connectionId`. -/
def rowsByConnection (t : List SubRow) (c : String) : List SubRow :=
  t.filter (fun r => r.connectionId = c)

/-- C6: idempotent subscribe. Subscribing the same (connection, topic) pair
twice in a row leaves exactly one active subscription row for the pair, and
its expiry is the second subscribe time plus the 1-hour TTL (3600 s). -/
theorem subscribe_idempotent (t : List SubRow) (c tok : String) (n1 n2 : Nat) :
    (subscribePrice (subscribePrice t c tok n1) c tok n2).filter
        (fun r => r.connectionId = c ∧ r.token = tok) = [⟨c, tok, n2 + 3600⟩] := by
  unfold subscribePrice putSub
  simp [List.filter_cons, List.filter_filter, List.filter_eq_nil_iff]
  exact fun a _ h _ => h

/-- C3 counterexample: starting from an empty registry, subscribing
connection `"C"` to topic `"A"` and then to a distinct topic `"B"` does NOT
leave both subscriptions active — the put keyed by `connectionId` alone
overwrites the first row, so `resolveSubscribers "A"` no longer returns
`"C"`, contradicting the claim that both topic keys resolve to the
connection. -/
theorem registry_shape_counterexample :
    "C" ∈ resolveSubscribers
        (subscribePrice (subscribePrice [] "C" "A" 0) "C" "B" 0) "B" ∧
    "C" ∉ resolveSubscribers
        (subscribePrice (subscribePrice [] "C" "A" 0) "C" "B" 0) "A" := by
  decide

/-- C3 (amended): because `PriceConnectionsTable` is keyed by `connectionId`
alone, subscribing a connection to a second, distinct topic of the same kind
overwrites its previous row: afterwards the connection holds exactly one
active subscription row — for the later topic — queryable by `connectionId`
and returned by `resolveSubscribers` for the later topic key only. -/
theorem registry_shape_amended (t : List SubRow) (c tok1 tok2 : String)
    (n1 n2 : Nat) (hne : tok1 ≠ tok2) :
    rowsByConnection
        (subscribePrice (subscribePrice t c tok1 n1) c tok2 n2) c
      = [⟨c, tok2, n2 + 3600⟩] ∧
    c ∈ resolveSubscribers
        (subscribePrice (subscribePrice t c tok1 n1) c tok2 n2) tok2 ∧
    c ∉ resolveSubscribers
        (subscribePrice (subscribePrice t c tok1 n1) c tok2 n2) tok1 := by
  have hrows : rowsByConnection
      (subscribePrice (subscribePrice t c tok1 n1) c tok2 n2) c
      = [⟨c, tok2, n2 + 3600⟩] := by
    unfold subscribePrice putSub rowsByConnection
    simp [List.filter_cons, List.filter_filter, List.filter_eq_nil_iff]
  refine ⟨hrows, ?_, ?_⟩
  · unfold subscribePrice putSub resolveSubscribers
    simp
  · intro hmem
    unfold resolveSubscribers at hmem
    rcases List.mem_map.mp hmem with ⟨r, hr, hrc⟩
    rcases List.mem_filter.mp hr with ⟨hrt2, htok⟩
    have hrow : r ∈ rowsByConnection
        (subscribePrice (subscribePrice t c tok1 n1) c tok2 n2) c :=
      List.mem_filter.mpr ⟨hrt2, by simp [hrc]⟩
    rw [hrows] at hrow
    rcases List.mem_singleton.mp hrow with rfl
    simp only [decide_eq_true_eq] at htok
    exact hne htok.symm

/-- Closed witness for the amended C3: the concrete two-topic run. -/
theorem registry_shape_amended_witness :
    rowsByConnection (subscribePrice (subscribePrice [] "C" "A" 0) "C" "B" 0) "C"
      = [⟨"C", "B", 3600⟩] := by
  exact (registry_shape_amended [] "C" "A" "B" 0 0 (by decide)).1

/-! ### Engine A fan-out worker (`src/source/workers/broadcast.ts`)

The SQS worker parses `{connectionIds, message}`; if `connectionIds` is
absent or empty it resolves targets from the `byToken` GSI, then posts the
message to every target.  A send failing with HTTP 410 ("connection gone")
is only logged — the source's comment reads "In production, you would
delete this from the connections table" — and every other send failure is
logged as an error; the worker never writes to the registry. -/

/-- Outcome of `PostToConnectionCommand` for one target connection. -/
inductive SendOutcome
  | delivered
  | gone
  | failedOther
deriving DecidableEq, Repr

structure FanoutResult where
  registry : List SubRow
  delivered : List String
  staleLogged : List String
  errorLogged : List String
deriving DecidableEq, Repr

/-- Embedding of one SQS record's processing by the broadcast worker.
`send` is the per-connection outcome of the management-API post.  The
registry field of the result equals the input registry because the 410
branch of the source only logs the stale connection. -/
def broadcastWorker (registry : List SubRow) (connectionIds : List String)
    (msgToken : String) (send : String → SendOutcome) : FanoutResult :=
  let targets :=
    if connectionIds.isEmpty then resolveSubscribers registry msgToken
    else connectionIds
  { registry := registry
    delivered := targets.filter (fun c => send c = SendOutcome.delivered)
    staleLogged := targets.filter (fun c => send c = SendOutcome.gone)
    errorLogged := targets.filter (fun c => send c = SendOutcome.failedOther) }

/-- Registry used by the C2 failing input: connections `"C1"` and `"C2"`
both subscribed to topic `"TOK"`. -/
def fanoutExampleRegistry : List SubRow :=
  [⟨"C1", "TOK", 9999⟩, ⟨"C2", "TOK", 9999⟩]

/-- Send oracle for the C2 failing input: the post to `"C2"` fails with
HTTP 410 (connection gone); the post to `"C1"` succeeds. -/
def fanoutExampleSend : String → SendOutcome :=
  fun c => if c = "C2" then SendOutcome.gone else SendOutcome.delivered

/-- C2 evaluated at the failing input: `"C1"` receives the message and the
410 failure for `"C2"` is detected as stale, but the worker leaves the
registry unchanged — `"C2"`'s subscription row is still present and a
subsequent `resolveSubscribers "TOK"` still returns `"C2"`, contrary to the
claimed permanent-failure pruning (the source only logs, with a comment
that production code would delete the row). -/
theorem fanout_prune_code_bug :
    (broadcastWorker fanoutExampleRegistry [] "TOK" fanoutExampleSend).delivered
      = ["C1"] ∧
    (broadcastWorker fanoutExampleRegistry [] "TOK" fanoutExampleSend).staleLogged
      = ["C2"] ∧
    (broadcastWorker fanoutExampleRegistry [] "TOK" fanoutExampleSend).registry
      = fanoutExampleRegistry ∧
    "C2" ∈ resolveSubscribers
        (broadcastWorker fanoutExampleRegistry [] "TOK" fanoutExampleSend).registry
        "TOK" := by
  decide

/-! ### Expiry sweeper (`src/unnamed/part_011`)

The sweeper handler iterates over the three TTL-bearing tables
(`PriceConnectionsTable`, `BalanceConnectionsTable`, `WebsocketNonceTable`).
For each table it scans with filter `ttl < :now`, paginating through
`LastEvaluatedKey` until the scan is exhausted, deletes each matched row in
a per-row try/catch (a failed delete is logged and the loop continues), and
accumulates a per-table `deletedCount`. -/

structure SweepRow where
  key : String
  ttl : Nat
deriving DecidableEq, Repr

/-- A row is removed by the sweep iff its `ttl` has passed (scan filter
`ttl < :now`) and its `DeleteCommand` succeeds (`ok`). -/
def expiredDel (now : Nat) (ok : String → Bool) (x : SweepRow) : Bool :=
  decide (x.ttl < now) && ok x.key

/-- One sweep pass over one table: the do/while pagination loop of the
handler, with scan pages of size `p` (at least one row per page, as in
DynamoDB).  Returns the surviving rows and the table's `deletedCount`. -/
def sweepTable (rows : List SweepRow) (now p : Nat) (ok : String → Bool) :
    List SweepRow × Nat :=
  match rows with
  | [] => ([], 0)
  | r :: rest =>
    let page := r :: rest.take (p - 1)
    let remaining := rest.drop (p - 1)
    let survivors := page.filter (fun x => !expiredDel now ok x)
    let deleted := (page.filter (expiredDel now ok)).length
    let res := sweepTable remaining now p ok
    (survivors ++ res.1, deleted + res.2)
termination_by rows.length
decreasing_by
  simp only [List.length_drop, List.length_cons]
  omega

/-- The sweeper lambda: one pass over the three tables, reporting a
deletion total per table. -/
def sweeperHandler (priceRows balanceRows nonceRows : List SweepRow)
    (now p : Nat) (ok : String → Bool) : List (List SweepRow × Nat) :=
  [sweepTable priceRows now p ok, sweepTable balanceRows now p ok,
   sweepTable nonceRows now p ok]

/-- Pagination-independent characterization of one sweep pass: the
survivors are exactly the rows that are unexpired or whose delete failed,
kept verbatim and in order, and the reported count is the number of
successfully deleted expired rows. -/
theorem sweepTable_eq_aux (now p : Nat) (ok : String → Bool) :
    ∀ (n : Nat) (rows : List SweepRow), rows.length ≤ n →
      sweepTable rows now p ok =
        (rows.filter (fun x => !expiredDel now ok x),
         (rows.filter (expiredDel now ok)).length) := by
  intro n
  induction n with
  | zero =>
    intro rows h
    have : rows = [] := List.eq_nil_of_length_eq_zero (Nat.le_zero.mp h)
    subst this
    simp [sweepTable]
  | succ n ih =>
    intro rows h
    match rows with
    | [] => simp [sweepTable]
    | r :: rest =>
      rw [sweepTable]
      have hlen : (rest.drop (p - 1)).length ≤ n := by
        simp only [List.length_drop]
        have := List.length_cons r rest ▸ h
        omega
      rw [ih _ hlen]
      dsimp only
      rw [Prod.mk.injEq]
      refine ⟨?_, ?_⟩
      · rw [← List.filter_append, List.cons_append, List.take_append_drop]
      · rw [← List.length_append, ← List.filter_append, List.cons_append,
          List.take_append_drop]

theorem sweepTable_eq (rows : List SweepRow) (now p : Nat)
    (ok : String → Bool) :
    sweepTable rows now p ok =
      (rows.filter (fun x => !expiredDel now ok x),
       (rows.filter (expiredDel now ok)).length) :=
  sweepTable_eq_aux now p ok rows.length rows (Nat.le_refl _)

/-- C7: sweeper pass postcondition, for every scan page size `p` (the loop
paginates until the table is exhausted) and each of the three tables.
(1) The handler reports one (survivors, deletion-total) pair per table;
(2) every row with `expiry ≥ now` survives the pass untouched;
(3) a row with `expiry < now` whose delete succeeds is absent afterwards,
    regardless of delete failures on other rows (collect-and-continue);
(4) when every delete succeeds, exactly the rows with `expiry ≥ now`
    remain, in order;
(5) the per-table reported total counts the successfully deleted expired
    rows. -/
theorem sweeper_pass_postcondition (priceRows balanceRows nonceRows :
    List SweepRow) (now p : Nat) (ok : String → Bool) :
    sweeperHandler priceRows balanceRows nonceRows now p ok =
      [sweepTable priceRows now p ok, sweepTable balanceRows now p ok,
       sweepTable nonceRows now p ok] ∧
    (∀ rows : List SweepRow, ∀ r ∈ rows, now ≤ r.ttl →
        r ∈ (sweepTable rows now p ok).1) ∧
    (∀ rows : List SweepRow, ∀ r ∈ rows, r.ttl < now → ok r.key = true →
        r ∉ (sweepTable rows now p ok).1) ∧
    ((∀ k, ok k = true) → ∀ rows : List SweepRow,
        (sweepTable rows now p ok).1
          = rows.filter (fun x => decide (now ≤ x.ttl))) ∧
    (∀ rows : List SweepRow,
        (sweepTable rows now p ok).2
          = (rows.filter (expiredDel now ok)).length) := by
  refine ⟨rfl, ?_, ?_, ?_, ?_⟩
  · intro rows r hr httl
    rw [sweepTable_eq]
    refine List.mem_filter.mpr ⟨hr, ?_⟩
    simp [expiredDel, Nat.not_lt.mpr httl]
  · intro rows r hr httl hok hmem
    rw [sweepTable_eq] at hmem
    have := (List.mem_filter.mp hmem).2
    simp [expiredDel, httl, hok] at this
  · intro hall rows
    rw [sweepTable_eq]
    apply List.filter_congr
    intro x _
    simp only [expiredDel, hall x.key, Bool.and_true]
    rw [← decide_not, decide_eq_decide]
    exact Nat.not_lt
  · intro rows
    rw [sweepTable_eq]

/-- Closed witness for C7: a two-row table swept at `now = 10` with page
size 1 and all deletes succeeding — the expired row `⟨"a", 5⟩` is gone and
the live row `⟨"b", 50⟩` survives, with one deletion reported. -/
theorem sweeper_pass_postcondition_witness :
    (⟨"b", 50⟩ : SweepRow) ∈
        (sweepTable [⟨"a", 5⟩, ⟨"b", 50⟩] 10 1 (fun _ => true)).1 ∧
    (⟨"a", 5⟩ : SweepRow) ∉
        (sweepTable [⟨"a", 5⟩, ⟨"b", 50⟩] 10 1 (fun _ => true)).1 ∧
    (sweepTable [⟨"a", 5⟩, ⟨"b", 50⟩] 10 1 (fun _ => true)).1
      = [⟨"b", 50⟩] := by
  have h := sweeper_pass_postcondition [⟨"a", 5⟩, ⟨"b", 50⟩] [] [] 10 1
      (fun _ => true)
  refine ⟨?_, ?_, ?_⟩
  · exact h.2.1 [⟨"a", 5⟩, ⟨"b", 50⟩] ⟨"b", 50⟩ (by decide) (by decide)
  · exact h.2.2.1 [⟨"a", 5⟩, ⟨"b", 50⟩] ⟨"a", 5⟩ (by decide) (by decide) rfl
  · rw [h.2.2.2.1 (fun _ => rfl) [⟨"a", 5⟩, ⟨"b", 50⟩]]
    decide

/-! ### Publisher engine choice (`src/unnamed/part_002`, the price-webhook
handler's broadcast-dispatch tail)

After writing the price tick, the handler checks
`USE_EDGE_BROADCAST === "true"` together with `EDGE_BROADCAST_URL` and
`EDGE_BROADCAST_SECRET`.  When all three are set it POSTs the broadcast
message to the edge worker; if that `fetch` throws or returns a non-OK
response it calls `broadcastViaSQS(message)`, which enqueues
`{connectionIds: [], message}` on the broadcast queue; in every case the
handler then returns 200 `{"status":"accepted"}`. -/

/-- Outcome of the publisher's `fetch` against the edge worker. -/
inductive EdgeOutcome
  | respOk
  | respNotOk
  | threw
deriving DecidableEq, Repr

/-- An SQS message body produced by `broadcastViaSQS`:
`{connectionIds, message}`. -/
structure SqsEntry where
  connectionIds : List String
  message : String
deriving DecidableEq, Repr

structure PublishOutcome where
  status : Nat
  sqsQueue : List SqsEntry
  edgeAttempted : Bool
deriving DecidableEq, Repr

/-- Embedding of the broadcast-dispatch tail of the price-webhook handler.
`useEdge`, `urlSet`, `secretSet` are the three configuration conditions;
`edge` is what the remote call to the edge worker does; `msg` the broadcast
message. -/
def publishDispatch (useEdge urlSet secretSet : Bool) (edge : EdgeOutcome)
    (msg : String) : PublishOutcome :=
  if useEdge && urlSet && secretSet then
    match edge with
    | .respOk => ⟨200, [], true⟩
    | .respNotOk => ⟨200, [⟨[], msg⟩], true⟩
    | .threw => ⟨200, [⟨[], msg⟩], true⟩
  else ⟨200, [⟨[], msg⟩], false⟩

/-- C8: engine fallback. When the edge engine is configured and its remote
call throws or returns a non-OK response, the same message is enqueued onto
the SQS queue engine (with empty `connectionIds`, so the queue worker
resolves the registry) and the handler still returns 200 — the fallback is
not surfaced to the publisher as an error. -/
theorem edge_engine_fallback (useEdge urlSet secretSet : Bool)
    (edge : EdgeOutcome) (msg : String)
    (hconf : useEdge = true ∧ urlSet = true ∧ secretSet = true)
    (hfail : edge ≠ EdgeOutcome.respOk) :
    (⟨[], msg⟩ : SqsEntry) ∈ (publishDispatch useEdge urlSet secretSet edge msg).sqsQueue ∧
    (publishDispatch useEdge urlSet secretSet edge msg).status = 200 ∧
    (publishDispatch useEdge urlSet secretSet edge msg).edgeAttempted = true := by
  obtain ⟨h1, h2, h3⟩ := hconf
  subst h1; subst h2; subst h3
  unfold publishDispatch
  cases edge with
  | respOk => exact absurd rfl hfail
  | respNotOk => exact ⟨List.mem_singleton.mpr rfl, rfl, rfl⟩
  | threw => exact ⟨List.mem_singleton.mpr rfl, rfl, rfl⟩

/-- Closed witness for C8: the concrete non-OK run. -/
theorem edge_engine_fallback_witness :
    (⟨[], "M"⟩ : SqsEntry) ∈
        (publishDispatch true true true EdgeOutcome.respNotOk "M").sqsQueue ∧
    (publishDispatch true true true EdgeOutcome.respNotOk "M").status = 200 := by
  have h := edge_engine_fallback true true true EdgeOutcome.respNotOk "M"
      ⟨rfl, rfl, rfl⟩ (by decide)
  exact ⟨h.1, h.2.1⟩

/-! ### Edge actor (`BroadcastRoom`, `src/unnamed/part_007`)

`broadcast(message)` iterates the in-memory connection map, calls
`socket.send` on each entry, collects the ids whose send threw into
`closedConnections`, and finally deletes those ids from the map. -/

/-- The per-connection entry of the room's in-memory map. -/
structure WebSocketInfo where
  connectedAt : Nat
  lastPing : Nat
deriving DecidableEq, Repr

/-- The ids collected into `closedConnections` during the send loop:
entries whose `socket.send` threw (`sendOk` false), in iteration order. -/
def broadcastClosed (conns : List (String × WebSocketInfo))
    (sendOk : String → Bool) : List String :=
  (conns.filter (fun c => !sendOk c.1)).map (·.1)

/-- Embedding of `BroadcastRoom.broadcast`: returns the ids the loop
attempted to send to, and the connection map after the
`closedConnections` cleanup. -/
def broadcastRun (conns : List (String × WebSocketInfo))
    (sendOk : String → Bool) :
    List String × List (String × WebSocketInfo) :=
  let closed := broadcastClosed conns sendOk
  (conns.map (·.1), conns.filter (fun c => !closed.contains c.1))

/-- C9: edge-actor broadcast postcondition. The loop attempts a send to
every socket in the room's map; afterwards the map holds exactly the
entries whose send succeeded (every erroring socket removed, every
succeeding one kept, in place); on an empty map the broadcast touches no
socket and completes as a no-op. -/
theorem broadcast_room_postcondition (conns : List (String × WebSocketInfo))
    (sendOk : String → Bool) :
    (broadcastRun conns sendOk).1 = conns.map (·.1) ∧
    (broadcastRun conns sendOk).2 = conns.filter (fun c => sendOk c.1) ∧
    (conns = [] →
      (broadcastRun conns sendOk).1 = [] ∧ (broadcastRun conns sendOk).2 = []) := by
  have hmain : (broadcastRun conns sendOk).2
      = conns.filter (fun c => sendOk c.1) := by
    unfold broadcastRun
    dsimp only
    apply List.filter_congr
    intro c hc
    rcases hsend : sendOk c.1 with _ | _
    · have : c.1 ∈ broadcastClosed conns sendOk := by
        unfold broadcastClosed
        exact List.mem_map.mpr ⟨c, List.mem_filter.mpr ⟨hc, by simp [hsend]⟩, rfl⟩
      simp only [List.elem_eq_true_of_mem this, hsend, Bool.not_true]
    · have hnot : c.1 ∉ broadcastClosed conns sendOk := by
        unfold broadcastClosed
        intro hmem
        rcases List.mem_map.mp hmem with ⟨d, hd, hdc⟩
        have hbad := (List.mem_filter.mp hd).2
        rw [hdc, hsend] at hbad
        simp at hbad
      have hcont : (broadcastClosed conns sendOk).contains c.1 = false := by
        rcases hcc : (broadcastClosed conns sendOk).contains c.1 with _ | _
        · rfl
        · exact absurd (List.mem_of_elem_eq_true hcc) hnot
      simp only [hcont, hsend, Bool.not_false]
  refine ⟨rfl, hmain, ?_⟩
  intro hempty
  subst hempty
  exact ⟨rfl, by rw [hmain]; rfl⟩

/-- Closed witness for C9: a two-connection room where the send to `"B"`
throws — afterwards only `"A"` remains; and the empty room is a no-op. -/
theorem broadcast_room_postcondition_witness :
    (broadcastRun [("A", ⟨0, 0⟩), ("B", ⟨0, 0⟩)] (fun c => c ≠ "B")).2
      = [("A", ⟨0, 0⟩)] ∧
    (broadcastRun ([] : List (String × WebSocketInfo)) (fun _ => true)).1 = [] ∧
    (broadcastRun ([] : List (String × WebSocketInfo)) (fun _ => true)).2 = [] := by
  refine ⟨?_, ?_⟩
  · rw [(broadcast_room_postcondition [("A", ⟨0, 0⟩), ("B", ⟨0, 0⟩)]
        (fun c => c ≠ "B")).2.1]
    decide
  · exact (broadcast_room_postcondition ([] : List (String × WebSocketInfo))
      (fun _ => true)).2.2 rfl

/-! ### Cloudflare worker route dispatch (the `fetch` handler exported next
to the Durable Object)

Routes, in source order: `POST /broadcast/:token` (webhook-secret gate,
then forward the body to the token's `BroadcastRoom`); `/ws/:token`
(upgrade + origin checks, then forward the upgrade to the room);
`/health`; otherwise 404.  JavaScript's `url.pathname.split("/")[2]` is
`String.splitOn "/"` at index 2, and a missing or empty segment is falsy. -/

/-- `String.split(sep)` of JavaScript for a one-character separator,
on the character list of the string (structurally recursive, so concrete
routes evaluate). -/
def splitOnChar (sep : Char) : List Char → List (List Char)
  | [] => [[]]
  | c :: cs =>
    let r := splitOnChar sep cs
    if c = sep then [] :: r
    else
      match r with
      | [] => [[c]]
      | h :: t => (c :: h) :: t

/-- The segments of `url.pathname.split("/")`. -/
def pathSegments (s : String) : List String :=
  (splitOnChar '/' s.data).map (fun cs => String.mk cs)

/-- `String.prototype.startsWith` of JavaScript. -/
def strStartsWith (s pre : String) : Bool :=
  s.data.take pre.data.length == pre.data

structure WorkerResponse where
  status : Nat
  /-- (token, body) pairs forwarded to a room's `/broadcast` endpoint -/
  roomBroadcastCalls : List (String × String)
  /-- tokens whose room received a forwarded WebSocket upgrade -/
  roomUpgradeCalls : List String
deriving DecidableEq, Repr

/-- Embedding of the worker `fetch` handler.  `roomStatus` is the status of
the room's response to a forwarded broadcast (the worker returns it
verbatim). -/
def workerFetch (pathname method : String) (authHeader : Option String)
    (secret : String) (body : String) (upgradeHeader : Option String)
    (origin : Option String) (allowedOrigins : String)
    (roomStatus : Nat) : WorkerResponse :=
  if strStartsWith pathname "/broadcast/" && (method == "POST") then
    let token := (pathSegments pathname).getD 2 ""
    if token = "" then ⟨400, [], []⟩
    else if authHeader ≠ some ("Bearer " ++ secret) then ⟨401, [], []⟩
    else ⟨roomStatus, [(token, body)], []⟩
  else if strStartsWith pathname "/ws/" then
    let token := (pathSegments pathname).getD 2 ""
    if token = "" then ⟨400, [], []⟩
    else if upgradeHeader ≠ some "websocket" then ⟨426, [], []⟩
    else
      match origin with
      | some o =>
        if ((splitOnChar ',' allowedOrigins.data).map
            (fun cs => String.mk cs)).contains o then ⟨101, [], [token]⟩
        else ⟨403, [], []⟩
      | none => ⟨101, [], [token]⟩
  else if pathname = "/health" then ⟨200, [], []⟩
  else ⟨404, [], []⟩

/-- C10: edge publish authorization gate. A `POST /broadcast/:token`
request whose `Authorization` header is not exactly `"Bearer "` followed by
the configured webhook secret is answered 401 and forwarded to no room;
and across all routes, a broadcast reaches a room only when the request
carried the exact secret. -/
theorem edge_publish_auth_gate (pathname method : String)
    (authHeader : Option String) (secret body : String)
    (upgradeHeader origin : Option String) (allowedOrigins : String)
    (roomStatus : Nat)
    (hpath : strStartsWith pathname "/broadcast/" = true)
    (hmethod : method = "POST")
    (htoken : (pathSegments pathname).getD 2 "" ≠ "")
    (hauth : authHeader ≠ some ("Bearer " ++ secret)) :
    (workerFetch pathname method authHeader secret body upgradeHeader origin
        allowedOrigins roomStatus).status = 401 ∧
    (workerFetch pathname method authHeader secret body upgradeHeader origin
        allowedOrigins roomStatus).roomBroadcastCalls = [] ∧
    (workerFetch pathname method authHeader secret body upgradeHeader origin
        allowedOrigins roomStatus).roomUpgradeCalls = [] ∧
    ∀ (pn m : String) (a : Option String) (b : String) (u o : Option String)
      (ao : String) (rs : Nat),
      (workerFetch pn m a secret b u o ao rs).roomBroadcastCalls ≠ [] →
        a = some ("Bearer " ++ secret) := by
  have hcond : (strStartsWith pathname "/broadcast/" && (method == "POST"))
      = true := by
    rw [hpath, hmethod]
    rfl
  have hmain : workerFetch pathname method authHeader secret body
      upgradeHeader origin allowedOrigins roomStatus = ⟨401, [], []⟩ := by
    unfold workerFetch
    rw [hcond]
    simp only [if_true]
    rw [if_neg htoken, if_pos hauth]
  refine ⟨by rw [hmain], by rw [hmain], by rw [hmain], ?_⟩
  intro pn m a b u o ao rs hne
  by_contra hna
  apply hne
  unfold workerFetch
  rcases hc : strStartsWith pn "/broadcast/" && (m == "POST") with _ | _
  · simp only [Bool.false_eq_true, if_false]
    rcases hw : strStartsWith pn "/ws/" with _ | _
    · simp only [Bool.false_eq_true, if_false]
      split <;> rfl
    · simp only [if_true]
      repeat' split
      all_goals rfl
  · simp only [if_true]
    repeat' split
    all_goals rfl

/-- Closed witness for C10: a concrete wrongly-authorized POST to
`/broadcast/TOK` is answered 401 with no room contact. -/
theorem edge_publish_auth_gate_witness :
    (workerFetch "/broadcast/TOK" "POST" (some "Bearer WRONG") "S" "{}"
        none none "" 200).status = 401 ∧
    (workerFetch "/broadcast/TOK" "POST" (some "Bearer WRONG") "S" "{}"
        none none "" 200).roomBroadcastCalls = [] := by
  have h := edge_publish_auth_gate "/broadcast/TOK" "POST"
      (some "Bearer WRONG") "S" "{}" none none "" 200
      (by decide) rfl (by decide) (by decide)
  exact ⟨h.1, h.2.1⟩

end Glow
